import Mathlib

/-!
Shallow embedding of the query-orchestration and retrieval pipeline of the
Solar multi-agent backend: rule-based and LLM-based routing
(backend/agents/controller.py), the FAISS-backed vector store
(backend/storage/vector_store.py), text chunking
(backend/utils/pdf_processor.py), web-search passage scoring
(backend/agents/web_search_agent.py), answer synthesis (backend/main.py)
and the bounded audit log (backend/utils/logger.py), together with
theorems settling the specification claims about them.

Python strings are modelled as lists of characters, with Python slice and
str.rfind index conventions (negative indices count from the end) made
explicit; the machine floats of the source are modelled as rationals.
-/

set_option maxRecDepth 40000
set_option maxHeartbeats 3200000

/-- Python str.lower() of a query, as a list of characters. -/
def toLowerData (s : String) : List Char := s.data.map Char.toLower

/-- Python substring test: `sub in hay`. -/
def containsSub (hay sub : List Char) : Bool :=
  (List.range (hay.length + 1)).any fun i => sub.isPrefixOf (hay.drop i)

/-- Python `any(keyword in hay for keyword in subs)`. -/
def containsAnyKw (hay : List Char) (subs : List String) : Bool :=
  subs.any fun kw => containsSub hay kw.data

/-- Python whitespace class (str.strip / str.split default). -/
def isPySpace (c : Char) : Bool :=
  c = ' ' || c = '\t' || c = '\n' || c = '\r' ||
  c = Char.ofNat 11 || c = Char.ofNat 12

/-- Python str.strip(). -/
def pyStrip (l : List Char) : List Char :=
  ((l.dropWhile isPySpace).reverse.dropWhile isPySpace).reverse

/-- backend/models.py AgentType: the capability identifiers of the system. -/
inductive AgentType where
  | controller
  | pdf_rag
  | web_search
  | arxiv
deriving DecidableEq

/-- backend/models.py AgentDecision (the `timestamp` field, a wall-clock
default, is omitted as an effect). -/
structure AgentDecision where
  agents_to_call : List AgentType
  rationale : String
  confidence : ℚ
deriving DecidableEq

namespace ControllerAgent

/-- controller.py line 182: explicit web search keywords (high priority). -/
def web_explicit_keywords : List String :=
  ["search web", "google search", "web search", "search online",
   "search internet", "find online", "look up online"]

/-- controller.py line 188: ArXiv keywords. -/
def arxiv_keywords : List String :=
  ["arxiv", "paper", "research", "publication", "study", "academic",
   "journal", "find papers", "scientific"]

/-- controller.py line 194: time-sensitive / current-information keywords. -/
def web_keywords : List String :=
  ["recent", "latest", "current", "news", "today", "2024", "2025", "now",
   "price", "stock", "weather", "score", "live"]

/-- controller.py line 201: PDF/document keywords. -/
def doc_keywords : List String :=
  ["document", "pdf", "uploaded", "file", "knowledge base", "according to",
   "summarize the", "from the document"]

/-- controller.py line 210: general-knowledge question keywords. -/
def general_keywords : List String :=
  ["what is", "who is", "explain", "define", "how does", "why"]

/-- ControllerAgent.route_with_rules (controller.py lines 166-235):
deterministic keyword-driven fallback routing. -/
def route_with_rules (query : String) (has_indexed_docs : Bool) : AgentDecision :=
  let query_lower := toLowerData query
  let agents_to_call : List AgentType := []
  let rationale_parts : List String := []
  -- Check for explicit web search keywords (HIGH PRIORITY)
  let (agents_to_call, rationale_parts) :=
    if containsAnyKw query_lower web_explicit_keywords then
      (agents_to_call ++ [AgentType.web_search],
       rationale_parts ++ ["explicit web search requested"])
    else (agents_to_call, rationale_parts)
  -- Check for ArXiv keywords
  let (agents_to_call, rationale_parts) :=
    if containsAnyKw query_lower arxiv_keywords then
      (agents_to_call ++ [AgentType.arxiv],
       rationale_parts ++ ["query mentions research/papers"])
    else (agents_to_call, rationale_parts)
  -- Check for time-sensitive/current information keywords
  let (agents_to_call, rationale_parts) :=
    if containsAnyKw query_lower web_keywords ∧
        AgentType.web_search ∉ agents_to_call then
      (agents_to_call ++ [AgentType.web_search],
       rationale_parts ++ ["query asks for recent/current information"])
    else (agents_to_call, rationale_parts)
  -- Check for PDF/document keywords
  let (agents_to_call, rationale_parts) :=
    if (containsAnyKw query_lower doc_keywords ∧ has_indexed_docs) ∧
        AgentType.pdf_rag ∉ agents_to_call then
      (agents_to_call ++ [AgentType.pdf_rag],
       rationale_parts ++ ["query references documents"])
    else (agents_to_call, rationale_parts)
  -- Default behavior
  let (agents_to_call, rationale_parts) :=
    if agents_to_call = [] then
      if containsAnyKw query_lower general_keywords ∧ has_indexed_docs then
        (agents_to_call ++ [AgentType.pdf_rag],
         rationale_parts ++ ["checking knowledge base for general question"])
      else
        (agents_to_call ++ [AgentType.web_search],
         rationale_parts ++ ["default to web search"])
    else (agents_to_call, rationale_parts)
  { agents_to_call := agents_to_call
    rationale := "Rule-based routing: " ++ String.intercalate ", " rationale_parts
    confidence := 7/10 }

/-- Python s.split(y): splits at every comma, keeping empty pieces. -/
def splitComma : List Char → List (List Char)
  | [] => [[]]
  | c :: rest =>
    let r := splitComma rest
    if c = ',' then [] :: r
    else
      match r with
      | [] => [[c]]
      | h :: t => (c :: h) :: t

/-- controller.py line 124: name.strip().upper().replace(" ", "_"). -/
def normalizeName (n : List Char) : List Char :=
  ((pyStrip n).map Char.toUpper).map fun c => if c = ' ' then '_' else c

/-- Outcome of the LLM routing call, after regex field extraction
(controller.py lines 100-116): either the request/parse raised
(network or backend failure, or no AGENTS match is summarized by
the two first constructors), or the three labeled fields as matched. -/
inductive LLMOutcome where
  | failure
  | reply (agentsField : Option String) (confidenceField : Option ℚ)
      (rationaleField : Option String)

/-- controller.py lines 127-135: map parsed agent names to AgentType;
a PDF/RAG name is appended only when documents are indexed. -/
def mapAgentNames (names : List (List Char)) (has_indexed_docs : Bool) :
    List AgentType :=
  names.foldl (fun acc name =>
    if containsSub name "PDF".data || containsSub name "RAG".data then
      if has_indexed_docs then acc ++ [AgentType.pdf_rag] else acc
    else if containsSub name "WEB".data || containsSub name "SEARCH".data then
      acc ++ [AgentType.web_search]
    else if containsSub name "ARXIV".data then
      acc ++ [AgentType.arxiv]
    else acc) []

/-- controller.py line 138: list(dict.fromkeys(...)) — remove duplicates
preserving first occurrence. -/
def dedupFirstSeen (l : List AgentType) : List AgentType :=
  l.foldl (fun acc a => if a ∈ acc then acc else acc ++ [a]) []

/-- ControllerAgent.route_with_llm (controller.py lines 89-164), over an
explicit backend/parse outcome. -/
def route_with_llm (query : String) (has_indexed_docs : Bool)
    (outcome : LLMOutcome) : AgentDecision :=
  match outcome with
  | .failure => route_with_rules query has_indexed_docs
  | .reply none _ _ => route_with_rules query has_indexed_docs
  | .reply (some agents_str) conf rat =>
    let agent_names := (splitComma agents_str.data).map normalizeName
    let agents_to_call := mapAgentNames agent_names has_indexed_docs
    let agents_to_call := dedupFirstSeen agents_to_call
    if agents_to_call = [] then route_with_rules query has_indexed_docs
    else
      { agents_to_call := agents_to_call
        rationale :=
          match rat with
          | some r => String.mk (pyStrip r.data)
          | none => "LLM routing decision"
        confidence := conf.getD (8/10) }

/-- The valid capabilities route_with_llm extracts from the outcome
(empty on failure, missing AGENTS field, or when every name is dropped). -/
def parsedCapabilities : LLMOutcome → Bool → List AgentType
  | .failure, _ => []
  | .reply none _ _, _ => []
  | .reply (some s) _ _, d =>
    dedupFirstSeen (mapAgentNames ((splitComma s.data).map normalizeName) d)

end ControllerAgent

/-- Python slice/rfind index normalization: a negative index counts from the
end of the string (clamped at 0), a non-negative one is clamped at the
length. -/
def pyNormIdx (len : Nat) (i : Int) : Nat :=
  if i < 0 then ((len : Int) + i).toNat else min i.toNat len

/-- Python slice s[a:b]. -/
def pySlice (s : List Char) (a b : Int) : List Char :=
  (s.take (pyNormIdx s.length b)).drop (pyNormIdx s.length a)

/-- Helper for str.rfind: over the suffixes of the text, the highest
starting index in [a, b - sub.length] where sub occurs, preferring matches
further right. -/
def lastMatchIdx (sub : List Char) (a b : Nat) :
    List Char → Nat → Option Nat
  | t, i =>
    let rightmost :=
      match t with
      | [] => none
      | _ :: rest => lastMatchIdx sub a b rest (i + 1)
    match rightmost with
    | some j => some j
    | none =>
      if a ≤ i ∧ i + sub.length ≤ b ∧ sub.isPrefixOf t then some i else none

/-- Python s.rfind(sub, a, b): highest index of an occurrence of sub lying
inside the (normalized) range, or -1. -/
def pyRfind (s sub : List Char) (a b : Int) : Int :=
  match lastMatchIdx sub (pyNormIdx s.length a) (pyNormIdx s.length b) s 0 with
  | some i => (i : Int)
  | none => -1

namespace PDFProcessor

/-- ASCII regex word class \w. -/
def isWordChar (c : Char) : Bool := c.isAlphanum || c = '_'

/-- Characters kept by clean_text (pdf_processor.py line 107): word
characters, whitespace, and the listed punctuation. -/
def keepChar (c : Char) : Bool :=
  isWordChar c || isPySpace c || (".,!?;:()[]-".data).contains c

/-- re.sub of one or more whitespace characters with a single space:
the flag records whether the previous character was whitespace. -/
def collapseWsAux : Bool → List Char → List Char
  | _, [] => []
  | prevWs, c :: rest =>
    if isPySpace c then
      if prevWs then collapseWsAux true rest
      else ' ' :: collapseWsAux true rest
    else c :: collapseWsAux false rest

/-- PDFProcessor.clean_text (pdf_processor.py lines 102-111): collapse
whitespace runs, drop special characters, replace newlines, strip. -/
def clean_text (text : List Char) : List Char :=
  let t := collapseWsAux false text
  let t := t.filter keepChar
  let t := t.map fun c => if c = '\n' then ' ' else c
  pyStrip t

/-- One chunk record as built in pdf_processor.py lines 151-157 (the
metadata dict, shared by all chunks, is omitted). -/
structure ChunkRec where
  content : List Char
  chunk_id : Nat
  start_char : Int
  end_char : Int
deriving DecidableEq

/-- pdf_processor.py lines 138-142: last sentence-terminal punctuation
followed by a space in the window, as max of the three rfind results. -/
def sentenceCut (text : List Char) (start e : Int) : Int :=
  max (pyRfind text ['.', ' '] start e)
    (max (pyRfind text ['!', ' '] start e) (pyRfind text ['?', ' '] start e))

/-- pdf_processor.py lines 132-145: the window end for a given start. -/
def chunkEnd (text : List Char) (chunk_size : Nat) (start : Int) : Int :=
  let e := start + chunk_size
  if e < (text.length : Int) then
    let sentence_end := sentenceCut text start e
    if sentence_end ≠ -1 ∧ sentence_end > start then sentence_end + 1 else e
  else e

/-- pdf_processor.py line 161: the next window start. -/
def nextStart (text : List Char) (chunk_size overlap : Nat) (start : Int) :
    Int :=
  chunkEnd text chunk_size start - overlap

/-- The while loop of chunk_text (pdf_processor.py lines 131-162), with an
explicit fuel bound since the source loop need not terminate; nextId is
len(chunks), the id given to the next kept chunk. -/
def chunkLoop (text : List Char) (chunk_size overlap : Nat) :
    Nat → Int → Nat → List ChunkRec
  | 0, _, _ => []
  | fuel + 1, start, nextId =>
    if start < (text.length : Int) then
      let e := chunkEnd text chunk_size start
      let c := pyStrip (pySlice text start e)
      if c = [] then chunkLoop text chunk_size overlap fuel (e - overlap) nextId
      else ⟨c, nextId, start, e⟩ ::
        chunkLoop text chunk_size overlap fuel (e - overlap) (nextId + 1)
    else []

/-- PDFProcessor.chunk_text (pdf_processor.py lines 113-163). -/
def chunk_text (text : List Char) (chunk_size overlap fuel : Nat) :
    List ChunkRec :=
  chunkLoop (clean_text text) chunk_size overlap fuel 0 0

/-- The (start, end) windows the loop visits, including those whose stripped
content is empty and which therefore leave no chunk. -/
def chunkWindows (text : List Char) (chunk_size overlap : Nat) :
    Nat → Int → List (Int × Int)
  | 0, _ => []
  | fuel + 1, start =>
    if start < (text.length : Int) then
      let e := chunkEnd text chunk_size start
      (start, e) :: chunkWindows text chunk_size overlap fuel (e - overlap)
    else []

end PDFProcessor

/-- Input on which chunk_text loops forever with the configured parameters
(chunk_size 500, overlap 50): 50 letters, a sentence end, 460 letters. -/
def c3text : List Char :=
  List.replicate 50 'x' ++ '.' :: ' ' :: List.replicate 460 'y'

/-- Input on which chunk_text drops an empty window: the sentence cut lands
at index 1, the next start 2 - 50 = -48 is a Python index near the end of
the text, so that window's slice is empty and is dropped, and the following
kept chunk starts at 402, far after the first chunk's end. -/
def c6text : List Char := 'a' :: '.' :: ' ' :: List.replicate 498 'x'

/-- The metadata dict attached to an indexed document, as consulted by the
store (delete_by_source reads only metadata.get("filename")). -/
structure Meta where
  filename : Option String
deriving DecidableEq, Inhabited

/-- One entry of FAISSVectorStore.documents (vector_store.py lines 66-70). -/
structure DocEntry where
  content : String
  metadata : Meta
  doc_id : Nat
deriving DecidableEq, Inhabited

/-- FAISSVectorStore state: the FAISS index is the list of stored vectors
(None before create_index), documents the parallel metadata list. -/
structure VectorStore where
  index : Option (List (List ℚ))
  documents : List DocEntry
deriving DecidableEq

namespace FAISSVectorStore

/-- The in-memory state right after __init__ sets index = None and
documents = [], before load runs. -/
def emptyStore : VectorStore := { index := none, documents := [] }

/-- FAISSVectorStore.create_index (vector_store.py lines 34-38). -/
def create_index (s : VectorStore) : VectorStore := { s with index := some [] }

/-- index.ntotal (0 when no index exists, matching get_stats). -/
def ntotal (s : VectorStore) : Nat := (s.index.getD []).length

/-- config.py: TOP_K_RETRIEVAL = 5. -/
def TOP_K_RETRIEVAL : Nat := 5

/-- FAISSVectorStore.add_documents (vector_store.py lines 40-74); the
embedding backend is an explicit function argument. Note Python zip stops
at the shorter of texts and metadatas. -/
def add_documents (embed : String → List ℚ) (s : VectorStore)
    (texts : List String) (metadatas : Option (List Meta)) : VectorStore :=
  let s := if s.index = none then create_index s else s
  if texts = [] then s
  else
    let embeddings := texts.map embed
    let metas := metadatas.getD (List.replicate texts.length default)
    { index := some (s.index.getD [] ++ embeddings)
      documents := (texts.zip metas).foldl
        (fun docs tm => docs ++ [⟨tm.1, tm.2, docs.length⟩]) s.documents }

/-- FAISSVectorStore.clear (vector_store.py lines 146-150). -/
def clear (_s : VectorStore) : VectorStore :=
  { index := some [], documents := [] }

/-- FAISSVectorStore.delete_by_source (vector_store.py lines 161-176):
rebuild from all entries whose metadata filename differs from source. -/
def delete_by_source (embed : String → List ℚ) (s : VectorStore)
    (source : String) : VectorStore :=
  let filtered_docs := s.documents.filter fun d => d.metadata.filename ≠ some source
  if filtered_docs.length < s.documents.length then
    let s' := clear s
    let texts := filtered_docs.map fun d => d.content
    let metadatas := filtered_docs.map fun d => d.metadata
    if texts ≠ [] then add_documents embed s' texts (some metadatas) else s'
  else s

/-- Squared Euclidean distance, the metric of faiss.IndexFlatL2. -/
def l2sq (u v : List ℚ) : ℚ := ((u.zip v).map fun p => (p.1 - p.2) ^ 2).sum

/-- vector_store.py line 109: similarity score 1 / (1 + distance). -/
def l2score (d : ℚ) : ℚ := 1 / (1 + d)

/-- Comparison of (index, distance) pairs by distance, the order in which
faiss.IndexFlatL2.search returns neighbors (ascending distance). -/
def distLe (a b : Nat × ℚ) : Prop := a.2 ≤ b.2

instance : DecidableRel distLe := fun a b =>
  inferInstanceAs (Decidable (a.2 ≤ b.2))

instance : IsTotal (Nat × ℚ) distLe := ⟨fun a b => le_total a.2 b.2⟩

instance : IsTrans (Nat × ℚ) distLe := ⟨fun _ _ _ hab hbc => le_trans hab hbc⟩

/-- index.search: the k nearest stored vectors by squared L2 distance,
ascending. -/
def knn (vecs : List (List ℚ)) (q : List ℚ) (k : Nat) : List (Nat × ℚ) :=
  (List.insertionSort distLe (vecs.enum.map fun p => (p.1, l2sq q p.2))).take k

/-- One search result (the copied document entry with score and distance
added, vector_store.py lines 104-111). -/
structure SearchResult where
  doc : DocEntry
  score : ℚ
  distance : ℚ
deriving DecidableEq

/-- FAISSVectorStore.search (vector_store.py lines 76-113). A top_k of None
or 0 falls back to TOP_K_RETRIEVAL (Python `top_k or settings...`); k is
reduced to ntotal; indices out of range of the documents list are skipped. -/
def search (embed : String → List ℚ) (s : VectorStore) (query : String)
    (top_k : Option Nat) : List SearchResult :=
  match s.index with
  | none => []
  | some vecs =>
    if vecs.length = 0 then []
    else
      let k := match top_k with
        | none => TOP_K_RETRIEVAL
        | some t => if t = 0 then TOP_K_RETRIEVAL else t
      let query_embedding := embed query
      let pairs := knn vecs query_embedding (min k vecs.length)
      (pairs.filter fun p => decide (p.1 < s.documents.length)).map fun p =>
        { doc := s.documents.getD p.1 default
          score := l2score p.2
          distance := p.2 }

/-- The store operations named by the spec; load is split into its two
observable paths: loading back a previously saved index/metadata pair
(save writes exactly the in-memory pair, vector_store.py lines 115-124),
and the fallback to a fresh index on missing or corrupt files. -/
inductive VSOp where
  | addDocuments (texts : List String) (metadatas : Option (List Meta))
  | clearOp
  | deleteBySource (source : String)
  | loadSaved (saved : VectorStore)
  | loadFresh

/-- Apply one operation to the store. -/
def applyOp (embed : String → List ℚ) (s : VectorStore) : VSOp → VectorStore
  | .addDocuments texts metas => add_documents embed s texts metas
  | .clearOp => clear s
  | .deleteBySource src => delete_by_source embed s src
  | .loadSaved saved => { index := saved.index, documents := saved.documents }
  | .loadFresh => create_index s

/-- The parallel-stores invariant: the vectors are exactly the embeddings of
the document contents in order (so both stores have equal length and the
Nth metadata entry corresponds to the Nth vector), and each entry records
its position as doc_id. -/
def inv (embed : String → List ℚ) (s : VectorStore) : Prop :=
  s.index.getD [] = s.documents.map (fun d => embed d.content) ∧
  ∀ i (h : i < s.documents.length), (s.documents.get ⟨i, h⟩).doc_id = i

/-- Side conditions under which the repository calls the operations:
add_documents is called with metadatas either omitted or covering every
text (all in-repo callers pass two equally long lists); a successful load
reads back a pair written by save of a consistent store; the fresh-index
fallback runs only during construction, when documents is empty. -/
def opOK (embed : String → List ℚ) (s : VectorStore) : VSOp → Prop
  | .addDocuments texts metas => ∀ ms, metas = some ms → texts.length ≤ ms.length
  | .loadSaved saved => inv embed saved
  | .loadFresh => s.documents = []
  | _ => True

/-- A one-vector store used as concrete input below. -/
def exStore : VectorStore :=
  { index := some [[1]], documents := [⟨"d", ⟨none⟩, 0⟩] }

end FAISSVectorStore

/-- backend/models.py DocumentChunk (the free-form metadata dict is omitted;
no claim depends on it). -/
structure DocumentChunk where
  content : String
  source : String
  page : Option Nat
  score : Option ℚ
deriving DecidableEq

/-- AgentType.value, the string value of the enum member. -/
def agentTypeValue : AgentType → String
  | .controller => "controller"
  | .pdf_rag => "pdf_rag"
  | .web_search => "web_search"
  | .arxiv => "arxiv"

/-- Python str.upper() (ASCII). -/
def pyUpper (s : String) : String := String.mk (s.data.map Char.toUpper)

namespace WebSearchAgent

/-- One web search result record as produced by search_serpapi /
search_duckduckgo (web_search_agent.py lines 70-75 and 110-115). -/
structure WebResult where
  title : String
  link : String
  snippet : String
  source : String
deriving DecidableEq

/-- WebSearchAgent.search_and_summarize (web_search_agent.py lines 204-239)
over an explicit result list: passage i is scored 1.0 - i * 0.1 by rank. -/
def search_and_summarize (results : List WebResult) : List DocumentChunk :=
  if results = [] then []
  else results.enum.map fun p =>
    { content := p.2.title ++ "\n\n" ++ p.2.snippet
      source := p.2.link
      page := none
      score := some ((1 : ℚ) - (p.1 : ℚ) * (1 / 10)) }

end WebSearchAgent

/-- A twelve-result list: rank 12 (index 11) gets score 1 - 1.1 < 0. -/
def c5results : List WebSearchAgent.WebResult :=
  List.replicate 12 ⟨"t", "l", "s", "DuckDuckGo"⟩

/-- backend/models.py AgentResponse, the fields consumed by
synthesize_answer and the logger (the free-form data payload is omitted). -/
structure AgentResp where
  agent_type : AgentType
  success : Bool
  error : Option String
  retrieved_docs : List DocumentChunk
  execution_time : ℚ
deriving DecidableEq

/-- One step of the context_parts loop of synthesize_answer
(main.py lines 101-111): a successful response with a non-empty document
list contributes a header and, per document (at most three, content cut at
800 characters), a source tag, the content, and a source line. -/
def contextStep (parts : List String) (response : AgentResp) : List String :=
  if response.success = true ∧ response.retrieved_docs ≠ [] then
    ((response.retrieved_docs.take 3).enum.foldl
      (fun ps p =>
        ps ++ ["\n[Source " ++ toString (p.1 + 1) ++ "]",
               p.2.content.take 800,
               "(Source: " ++ p.2.source ++ ")"])
      (parts ++ ["\n=== Information from " ++
        pyUpper (agentTypeValue response.agent_type) ++ " ==="]))
  else parts

/-- The collected context parts of synthesize_answer. -/
def contextParts (agent_responses : List AgentResp) : List String :=
  agent_responses.foldl contextStep []

/-- main.py line 114: the fixed response returned when no capability
contributed a passage. -/
def insufficientMsg : String :=
  "I couldn't find relevant information to answer your query. Please try rephrasing or upload relevant documents."

/-- The synthesis prompt of main.py lines 119-135. -/
def mkSynthesisPrompt (query context decision_rationale : String) : String :=
  "You are an AI assistant that synthesizes information from multiple sources to answer user queries.\n\nUser Query: "
    ++ query
    ++ "\n\nRouting Decision: " ++ decision_rationale
    ++ "\n\nRetrieved Information:\n" ++ context
    ++ "\n\nInstructions:\n1. Synthesize a comprehensive answer based on the retrieved information\n2. Be concise and direct\n3. Cite sources when making specific claims (e.g., \"According to [source]...\")\n4. If information is conflicting, acknowledge it\n5. If information is insufficient, state what's missing\n\nProvide your answer:"

/-- Observable outcome of synthesize_answer (main.py lines 84-151): either
a fixed answer returned without invoking the completion backend, or a call
to the backend with the assembled prompt (whose own failure is then
recovered by the truncated-context fallback, not modelled here). -/
inductive SynthOutcome where
  | noCall (answer : String)
  | callBackend (prompt : String)
deriving DecidableEq

/-- synthesize_answer up to the backend call: collect context from the
agent responses; with no context parts, return the fixed message without
calling the backend. -/
def synthesize_answer (query : String) (agent_responses : List AgentResp)
    (decision_rationale : String) : SynthOutcome :=
  let context_parts := contextParts agent_responses
  if context_parts = [] then .noCall insufficientMsg
  else .callBackend (mkSynthesisPrompt query
    (String.intercalate "\n" context_parts) decision_rationale)

namespace AgentLogger

/-- logger.py line 97: the hard cap on stored log entries. -/
def LOG_CAP : Nat := 1000

/-- The decision summary stored in a log entry (logger.py lines 71-75). -/
structure DecisionSummary where
  agents_called : List String
  rationale : String
  confidence : ℚ
deriving DecidableEq

/-- The per-agent summary stored in a log entry (logger.py lines 76-85):
passage content is not stored, only the count. -/
structure RespSummary where
  agent_type : String
  success : Bool
  error : Option String
  num_retrieved_docs : Nat
  execution_time : ℚ
deriving DecidableEq

/-- One audit log entry (logger.py lines 67-88). -/
structure LogEntry where
  request_id : String
  timestamp : String
  query : String
  decision : DecisionSummary
  agent_responses : List RespSummary
  final_answer : String
  total_execution_time : ℚ
deriving DecidableEq

/-- The dict built by log_request (uuid and wall clock are inputs here). -/
def mkLogEntry (request_id timestamp query : String) (decision : AgentDecision)
    (agent_responses : List AgentResp) (final_answer : String)
    (total_execution_time : ℚ) : LogEntry :=
  { request_id := request_id
    timestamp := timestamp
    query := query
    decision :=
      { agents_called := decision.agents_to_call.map agentTypeValue
        rationale := decision.rationale
        confidence := decision.confidence }
    agent_responses := agent_responses.map fun r =>
      { agent_type := agentTypeValue r.agent_type
        success := r.success
        error := r.error
        num_retrieved_docs := r.retrieved_docs.length
        execution_time := r.execution_time }
    final_answer := final_answer
    total_execution_time := total_execution_time }

/-- Python logs[-n:] for n > 0: the last n entries. -/
def lastN (n : Nat) (l : List α) : List α := l.drop (l.length - n)

/-- AgentLogger.log_request on the stored log list (logger.py lines 90-101):
append, then keep only the last LOG_CAP entries. -/
def log_request (logs : List LogEntry) (entry : LogEntry) : List LogEntry :=
  let logs := logs ++ [entry]
  if LOG_CAP < logs.length then lastN LOG_CAP logs else logs

/-- AgentLogger.get_logs (logger.py lines 106-117): logs[-limit:], which is
the whole list when limit = 0. -/
def get_logs (logs : List LogEntry) (limit : Nat) : List LogEntry :=
  if limit = 0 then logs else lastN limit logs

/-- A concrete log entry for the witness below. -/
def exEntry : LogEntry :=
  { request_id := "r", timestamp := "t", query := "q"
    decision := { agents_called := ["web_search"], rationale := "", confidence := 7/10 }
    agent_responses := []
    final_answer := "a"
    total_execution_time := 0 }

end AgentLogger

/-- C1. The claim is false as stated: the query below contains the phrase
"search the web" and the index is non-empty, yet rule-based routing selects
only the paper-search capability (the explicit-web keyword list holds
"search web", "web search", ... but not "search the web", and the query
matches the ArXiv rule, so the default web-search branch never runs). -/
theorem c1_counterexample :
    containsSub (toLowerData "search the web for research papers")
      "search the web".data = true ∧
    (ControllerAgent.route_with_rules "search the web for research papers"
      true).agents_to_call = [AgentType.arxiv] ∧
    AgentType.web_search ∉
      (ControllerAgent.route_with_rules "search the web for research papers"
        true).agents_to_call := by
  refine ⟨by decide, by decide, by decide⟩

/-- C1 (amended): for every query containing one of the explicit web-search
keywords of the rule table ("search web", "google search", "web search",
"search online", "search internet", "find online", "look up online") and any
index state, rule-based routing selects live-web search. -/
theorem c1_amended_explicit_keyword_forces_web_search (query : String)
    (d : Bool)
    (h : containsAnyKw (toLowerData query)
      ControllerAgent.web_explicit_keywords = true) :
    AgentType.web_search ∈
      (ControllerAgent.route_with_rules query d).agents_to_call := by
  simp only [ControllerAgent.route_with_rules, h, if_true]
  split_ifs <;> simp_all [List.mem_append]

/-- Witness for C1 (amended) at a concrete query. -/
theorem c1_witness :
    containsAnyKw (toLowerData "please run a web search for gold prices")
      ControllerAgent.web_explicit_keywords = true ∧
    AgentType.web_search ∈
      (ControllerAgent.route_with_rules "please run a web search for gold prices"
        true).agents_to_call :=
  ⟨by decide,
   c1_amended_explicit_keyword_forces_web_search _ true (by decide)⟩

/-- C4. The claim is false as stated: here the backend proposes document-index
search while the index is empty (together with web search); the code silently
drops the PDF_RAG name and keeps the LLM decision, which differs from the
rule-based decision for the same query and index state. -/
theorem c4_counterexample :
    (ControllerAgent.route_with_llm "find research papers about transformers"
        false
        (.reply (some "PDF_RAG, WEB_SEARCH") (some (9/10))
          (some "needs documents and web"))).agents_to_call
      = [AgentType.web_search] ∧
    (ControllerAgent.route_with_rules "find research papers about transformers"
        false).agents_to_call = [AgentType.arxiv] ∧
    ControllerAgent.route_with_llm "find research papers about transformers"
        false
        (.reply (some "PDF_RAG, WEB_SEARCH") (some (9/10))
          (some "needs documents and web"))
      ≠ ControllerAgent.route_with_rules "find research papers about transformers"
        false := by
  refine ⟨by decide, by decide, by decide⟩

/-- C4 (amended): if the LLM outcome yields no valid capability — backend
failure, missing AGENTS field, or every proposed name dropped (unknown names,
and document-index proposals while the index is empty) — then the returned
decision equals the rule-based decision for the same query and index state.
A document-index proposal on an empty index alongside other valid
capabilities is dropped silently instead of forcing the fallback. -/
theorem c4_amended_no_valid_capability_falls_back (query : String) (d : Bool)
    (o : ControllerAgent.LLMOutcome)
    (h : ControllerAgent.parsedCapabilities o d = []) :
    ControllerAgent.route_with_llm query d o =
      ControllerAgent.route_with_rules query d := by
  cases o with
  | failure => rfl
  | reply a c r =>
    cases a with
    | none => rfl
    | some s =>
      simp only [ControllerAgent.parsedCapabilities] at h
      simp only [ControllerAgent.route_with_llm, h, if_true]

/-- Witness for C4 (amended): the reply proposes only document-index search
while the index is empty, so the rule-based decision is returned. -/
theorem c4_witness :
    ControllerAgent.parsedCapabilities
        (.reply (some "PDF_RAG") (some (95/100)) (some "use the documents"))
        false = [] ∧
    ControllerAgent.route_with_llm "what is entropy" false
        (.reply (some "PDF_RAG") (some (95/100)) (some "use the documents")) =
      ControllerAgent.route_with_rules "what is entropy" false :=
  ⟨by decide,
   c4_amended_no_valid_capability_falls_back "what is entropy" false _ (by decide)⟩

/-- The loop body on c3text from window start 1: the sentence cut lands at
index 50, so the window ends at 51 and the next start is 51 - 50 = 1. -/
theorem c3_loop_step : PDFProcessor.nextStart c3text 500 50 1 = 1 := by decide

/-- On c3text, every unit of fuel is consumed from start 1 with the loop
condition still true: one chunk per iteration, forever. -/
theorem c3_loop_stuck : ∀ (fuel nextId : Nat),
    (PDFProcessor.chunkLoop c3text 500 50 fuel 1 nextId).length = fuel := by
  intro fuel
  induction fuel with
  | zero => intro _; rfl
  | succ n ih =>
    intro nextId
    have h1 : (1 : Int) < (c3text.length : Int) := by decide
    have he : PDFProcessor.chunkEnd c3text 500 1 = 51 := by decide
    have hc : ¬ (pyStrip (pySlice c3text 1 51) = []) := by decide
    simp only [PDFProcessor.chunkLoop, if_pos h1, he, if_neg hc,
      List.length_cons]
    rw [show (51 : Int) - (50 : Nat) = 1 by norm_num]
    rw [ih]

/-- C3. The claim is false and the code is wrong (infinite loop): on the
cleaned 512-character input c3text with chunk_size 500 and overlap 50, the
window start sequence is 0, 1, 1, 1, ... — the start does not strictly
increase once the sentence cut lands within overlap of the window start, the
loop never reaches the end of the text, and every amount of fuel produces
that many chunks. -/
theorem c3_code_bug :
    PDFProcessor.clean_text c3text = c3text ∧
    PDFProcessor.nextStart c3text 500 50 0 = 1 ∧
    PDFProcessor.nextStart c3text 500 50 1 = 1 ∧
    (1 : Int) < (c3text.length : Int) ∧
    ∀ fuel : Nat, (PDFProcessor.chunk_text c3text 500 50 fuel).length = fuel := by
  refine ⟨by decide, by decide, c3_loop_step, by decide, ?_⟩
  intro fuel
  cases fuel with
  | zero => rfl
  | succ n =>
    have hclean : PDFProcessor.clean_text c3text = c3text := by decide
    have h0 : (0 : Int) < (c3text.length : Int) := by decide
    have he : PDFProcessor.chunkEnd c3text 500 0 = 51 := by decide
    have hc : ¬ (pyStrip (pySlice c3text 0 51) = []) := by decide
    simp only [PDFProcessor.chunk_text, hclean]
    simp only [PDFProcessor.chunkLoop, if_pos h0, he, if_neg hc,
      List.length_cons]
    rw [show (51 : Int) - (50 : Nat) = 1 by norm_num]
    rw [c3_loop_stuck]

theorem length_pyStrip_le (l : List Char) : (pyStrip l).length ≤ l.length := by
  unfold pyStrip
  have h1 := (List.dropWhile_sublist (l := l) (p := isPySpace)).length_le
  have h2 := (List.dropWhile_sublist
    (l := (l.dropWhile isPySpace).reverse) (p := isPySpace)).length_le
  simp only [List.length_reverse] at *
  omega

theorem pyNormIdx_add_le (len : Nat) (start : Int) (cs : Nat) :
    pyNormIdx len (start + cs) ≤ pyNormIdx len start + cs := by
  unfold pyNormIdx
  split_ifs <;> omega

theorem pyNormIdx_le_toNat (len : Nat) (i : Int) (h : 0 ≤ i) :
    pyNormIdx len i ≤ i.toNat := by
  unfold pyNormIdx
  split_ifs <;> omega

theorem pyNormIdx_le_len (len : Nat) (i : Int) : pyNormIdx len i ≤ len := by
  unfold pyNormIdx
  split_ifs <;> omega

theorem lastMatchIdx_spec (sub : List Char) (a b : Nat) :
    ∀ (t : List Char) (i j : Nat), lastMatchIdx sub a b t i = some j →
      a ≤ j ∧ j + sub.length ≤ b := by
  intro t
  induction t with
  | nil =>
    intro i j h
    simp only [lastMatchIdx] at h
    split_ifs at h with hc
    obtain ⟨h1, h2, _⟩ := hc
    cases h
    exact ⟨h1, h2⟩
  | cons c rest ih =>
    intro i j h
    simp only [lastMatchIdx] at h
    cases hr : lastMatchIdx sub a b rest (i + 1) with
    | some k =>
      rw [hr] at h
      cases h
      exact ih _ _ hr
    | none =>
      rw [hr] at h
      split_ifs at h with hc
      obtain ⟨h1, h2, _⟩ := hc
      cases h
      exact ⟨h1, h2⟩

theorem pyRfind_spec (s sub : List Char) (a b : Int) :
    pyRfind s sub a b = -1 ∨
    (0 ≤ pyRfind s sub a b ∧
      pyNormIdx s.length a ≤ (pyRfind s sub a b).toNat ∧
      (pyRfind s sub a b).toNat + sub.length ≤ pyNormIdx s.length b) := by
  unfold pyRfind
  cases h : lastMatchIdx sub (pyNormIdx s.length a) (pyNormIdx s.length b) s 0 with
  | none => exact Or.inl rfl
  | some j =>
    right
    obtain ⟨h1, h2⟩ := lastMatchIdx_spec _ _ _ _ _ _ h
    simp only [Int.toNat_ofNat]
    exact ⟨by positivity, h1, h2⟩

theorem sentenceCut_spec (text : List Char) (start e : Int)
    (h : PDFProcessor.sentenceCut text start e ≠ -1) :
    0 ≤ PDFProcessor.sentenceCut text start e ∧
    pyNormIdx text.length start ≤ (PDFProcessor.sentenceCut text start e).toNat ∧
    (PDFProcessor.sentenceCut text start e).toNat + 2 ≤ pyNormIdx text.length e := by
  have c1 := pyRfind_spec text ['.', ' '] start e
  have c2 := pyRfind_spec text ['!', ' '] start e
  have c3 := pyRfind_spec text ['?', ' '] start e
  simp only [List.length_cons, List.length_nil] at c1 c2 c3
  unfold PDFProcessor.sentenceCut at h ⊢
  rcases max_choice (pyRfind text ['.', ' '] start e)
      (max (pyRfind text ['!', ' '] start e) (pyRfind text ['?', ' '] start e)) with
    h1 | h1 <;> rw [h1] at h ⊢
  · rcases c1 with hc | hc
    · exact absurd hc h
    · exact ⟨hc.1, hc.2.1, hc.2.2⟩
  · rcases max_choice (pyRfind text ['!', ' '] start e)
        (pyRfind text ['?', ' '] start e) with h2 | h2 <;> rw [h2] at h ⊢
    · rcases c2 with hc | hc
      · exact absurd hc h
      · exact ⟨hc.1, hc.2.1, hc.2.2⟩
    · rcases c3 with hc | hc
      · exact absurd hc h
      · exact ⟨hc.1, hc.2.1, hc.2.2⟩

theorem pyNormIdx_chunkEnd_le (text : List Char) (cs : Nat) (start : Int) :
    pyNormIdx text.length (PDFProcessor.chunkEnd text cs start) ≤
      pyNormIdx text.length start + cs := by
  have hadd := pyNormIdx_add_le text.length start cs
  simp only [PDFProcessor.chunkEnd]
  split_ifs with h1 h2
  · obtain ⟨hne, hgt⟩ := h2
    obtain ⟨hpos, hlo, hhi⟩ := sentenceCut_spec text start (start + cs) hne
    have f1 : pyNormIdx text.length (PDFProcessor.sentenceCut text start (start + cs) + 1)
        ≤ (PDFProcessor.sentenceCut text start (start + cs) + 1).toNat :=
      pyNormIdx_le_toNat _ _ (by omega)
    omega
  · exact hadd
  · exact hadd

theorem chunk_content_le (text : List Char) (cs : Nat) (start : Int) :
    (pyStrip (pySlice text start (PDFProcessor.chunkEnd text cs start))).length ≤ cs := by
  have h1 := length_pyStrip_le (pySlice text start (PDFProcessor.chunkEnd text cs start))
  have h2 : (pySlice text start (PDFProcessor.chunkEnd text cs start)).length =
      pyNormIdx text.length (PDFProcessor.chunkEnd text cs start) -
        pyNormIdx text.length start := by
    unfold pySlice
    have hb := pyNormIdx_le_len text.length (PDFProcessor.chunkEnd text cs start)
    simp only [List.length_drop, List.length_take]
    omega
  have h3 := pyNormIdx_chunkEnd_le text cs start
  omega

theorem chunkLoop_content_le (text : List Char) (cs ov : Nat) :
    ∀ (fuel : Nat) (start : Int) (nid : Nat) (c : PDFProcessor.ChunkRec),
      c ∈ PDFProcessor.chunkLoop text cs ov fuel start nid →
        c.content.length ≤ cs := by
  intro fuel
  induction fuel with
  | zero =>
    intro start nid c h
    simp [PDFProcessor.chunkLoop] at h
  | succ n ih =>
    intro start nid c h
    simp only [PDFProcessor.chunkLoop] at h
    split_ifs at h with h1 h2
    · exact ih _ _ _ h
    · rcases List.mem_cons.mp h with rfl | h3
      · exact chunk_content_le text cs start
      · exact ih _ _ _ h3
    · simp at h

theorem chunkLoop_chain (text : List Char) (cs ov : Nat) :
    ∀ (fuel : Nat) (start : Int) (nid : Nat),
      (∀ w ∈ PDFProcessor.chunkWindows text cs ov fuel start,
        pyStrip (pySlice text w.1 w.2) ≠ []) →
      List.Chain' (fun a b => b.start_char = a.end_char - (ov : Int))
          (PDFProcessor.chunkLoop text cs ov fuel start nid) ∧
      (∀ c ∈ (PDFProcessor.chunkLoop text cs ov fuel start nid).head?,
        c.start_char = start) := by
  intro fuel
  induction fuel with
  | zero =>
    intro start nid _
    exact ⟨by simp [PDFProcessor.chunkLoop], by simp [PDFProcessor.chunkLoop]⟩
  | succ n ih =>
    intro start nid h
    by_cases h1 : start < (text.length : Int)
    · have hw : (start, PDFProcessor.chunkEnd text cs start) ∈
          PDFProcessor.chunkWindows text cs ov (n + 1) start := by
        simp only [PDFProcessor.chunkWindows, if_pos h1]
        exact List.mem_cons_self _ _
      have hne := h _ hw
      have hrest : ∀ w ∈ PDFProcessor.chunkWindows text cs ov n
          (PDFProcessor.chunkEnd text cs start - ov),
          pyStrip (pySlice text w.1 w.2) ≠ [] := by
        intro w hw'
        apply h
        simp only [PDFProcessor.chunkWindows, if_pos h1]
        exact List.mem_cons_of_mem _ hw'
      obtain ⟨ihc, ihh⟩ := ih (PDFProcessor.chunkEnd text cs start - ov) (nid + 1) hrest
      simp only [PDFProcessor.chunkLoop, if_pos h1, if_neg hne]
      constructor
      · rw [List.chain'_cons']
        refine ⟨?_, ihc⟩
        intro y hy
        exact ihh y hy
      · intro c hc
        simp only [List.head?_cons, Option.mem_def, Option.some.injEq] at hc
        subst hc
        rfl
    · refine ⟨by simp [PDFProcessor.chunkLoop, h1], by simp [PDFProcessor.chunkLoop, h1]⟩

/-- C6. The claim is false as stated: on c6text with chunk_size 500 and
overlap 50, the loop visits the window (-48, 452) whose slice is empty (a
Python negative index), drops it, and the two kept chunks are (0, 2) and
(402, 902): the second starts neither at 2 - 50 nor at or before the first
chunk's end. -/
theorem c6_counterexample :
    PDFProcessor.chunk_text c6text 500 50 8 =
      [⟨['a', '.'], 0, 0, 2⟩, ⟨List.replicate 99 'x', 1, 402, 902⟩] ∧
    ¬ List.Chain' (fun a b => b.start_char = a.end_char - (50 : Int))
        (PDFProcessor.chunk_text c6text 500 50 8) := by
  have h1 : PDFProcessor.chunk_text c6text 500 50 8 =
      [⟨['a', '.'], 0, 0, 2⟩, ⟨List.replicate 99 'x', 1, 402, 902⟩] := by decide
  refine ⟨h1, ?_⟩
  rw [h1]
  intro hcontr
  obtain ⟨hr, -⟩ := List.chain'_cons.mp hcontr
  have hr' : (402 : Int) = 2 - 50 := hr
  norm_num at hr'

/-- C6 (amended): every chunk returned by chunk_text has content length at
most chunk_size (unconditionally), and — provided every window the loop
visits yields a non-empty stripped chunk, so no window is dropped — each
chunk after the first starts exactly at the previous chunk's end minus
overlap. A dropped empty window (possible when a sentence cut lands within
overlap of the window start) can break the overlap relation between the
surviving neighbours. -/
theorem c6_amended_length_and_overlap (text : List Char) (cs ov fuel : Nat)
    (h : ∀ w ∈ PDFProcessor.chunkWindows (PDFProcessor.clean_text text) cs ov fuel 0,
      pyStrip (pySlice (PDFProcessor.clean_text text) w.1 w.2) ≠ []) :
    (∀ c ∈ PDFProcessor.chunk_text text cs ov fuel, c.content.length ≤ cs) ∧
    List.Chain' (fun a b => b.start_char = a.end_char - (ov : Int))
      (PDFProcessor.chunk_text text cs ov fuel) := by
  constructor
  · intro c hc
    exact chunkLoop_content_le _ _ _ _ _ _ _ hc
  · exact (chunkLoop_chain _ _ _ fuel 0 0 h).1

/-- Witness for C6 (amended) on a short text with a single window. -/
theorem c6_witness :
    (∀ c ∈ PDFProcessor.chunk_text "hello world".data 500 50 5,
      c.content.length ≤ 500) ∧
    List.Chain' (fun a b => b.start_char = a.end_char - (50 : Int))
      (PDFProcessor.chunk_text "hello world".data 500 50 5) :=
  c6_amended_length_and_overlap "hello world".data 500 50 5 (by decide)

namespace FAISSVectorStore

theorem add_documents_nil (embed : String → List ℚ) (s : VectorStore)
    (metadatas : Option (List Meta)) :
    add_documents embed s [] metadatas =
      if s.index = none then create_index s else s := by
  simp [add_documents]

theorem add_documents_eq (embed : String → List ℚ) (s : VectorStore)
    (texts : List String) (metadatas : Option (List Meta))
    (htexts : texts ≠ []) :
    add_documents embed s texts metadatas =
      { index := some (s.index.getD [] ++ texts.map embed)
        documents :=
          (texts.zip (metadatas.getD (List.replicate texts.length default))).foldl
            (fun docs tm => docs ++ [⟨tm.1, tm.2, docs.length⟩]) s.documents } := by
  simp only [add_documents]
  rw [if_neg htexts]
  by_cases hidx : s.index = none
  · rw [if_pos hidx, hidx]
    rfl
  · rw [if_neg hidx]

theorem addFold_content (pairs : List (String × Meta)) :
    ∀ docs : List DocEntry,
      ((pairs.foldl (fun ds tm => ds ++ [⟨tm.1, tm.2, ds.length⟩]) docs).map
        fun d => d.content) = (docs.map fun d => d.content) ++ pairs.map Prod.fst := by
  induction pairs with
  | nil => intro docs; simp
  | cons p rest ih =>
    intro docs
    rw [List.foldl_cons, ih]
    simp

theorem idsOK_append (docs : List DocEntry) (t : String) (m : Meta)
    (hd : ∀ i (h : i < docs.length), (docs.get ⟨i, h⟩).doc_id = i) :
    ∀ i (h : i < (docs ++ [(⟨t, m, docs.length⟩ : DocEntry)]).length),
      ((docs ++ [(⟨t, m, docs.length⟩ : DocEntry)]).get ⟨i, h⟩).doc_id = i := by
  intro i h
  rw [List.get_eq_getElem]
  rcases Nat.lt_or_ge i docs.length with hlt | hge
  · rw [List.getElem_append_left hlt]
    have := hd i hlt
    rw [List.get_eq_getElem] at this
    exact this
  · simp only [List.length_append, List.length_singleton] at h
    have hi : i = docs.length := by omega
    subst hi
    rw [List.getElem_append_right hge]
    simp

theorem addFold_ids (pairs : List (String × Meta)) :
    ∀ docs : List DocEntry,
      (∀ i (h : i < docs.length), (docs.get ⟨i, h⟩).doc_id = i) →
      ∀ i (h : i < (pairs.foldl (fun ds tm => ds ++ [⟨tm.1, tm.2, ds.length⟩]) docs).length),
        ((pairs.foldl (fun ds tm => ds ++ [⟨tm.1, tm.2, ds.length⟩]) docs).get
          ⟨i, h⟩).doc_id = i := by
  induction pairs with
  | nil => intro docs hd; exact hd
  | cons p rest ih =>
    intro docs hd
    rw [List.foldl_cons]
    exact ih _ (idsOK_append docs p.1 p.2 hd)

theorem add_documents_inv (embed : String → List ℚ) (s : VectorStore)
    (texts : List String) (metadatas : Option (List Meta))
    (h1 : inv embed s)
    (hm : ∀ ms, metadatas = some ms → texts.length ≤ ms.length) :
    inv embed (add_documents embed s texts metadatas) := by
  obtain ⟨hc, hi⟩ := h1
  by_cases htexts : texts = []
  · subst htexts
    rw [add_documents_nil]
    split_ifs with hidx
    · constructor
      · rw [hidx] at hc
        exact hc
      · exact hi
    · exact ⟨hc, hi⟩
  · rw [add_documents_eq embed s texts metadatas htexts]
    have hmlen : texts.length ≤
        (metadatas.getD (List.replicate texts.length default)).length := by
      cases metadatas with
      | none => simp
      | some ms => simpa using hm ms rfl
    have hfst : (texts.zip (metadatas.getD (List.replicate texts.length default))).map
        Prod.fst = texts := List.map_fst_zip _ _ hmlen
    constructor
    · show s.index.getD [] ++ texts.map embed = _
      have hcontent := addFold_content
        (texts.zip (metadatas.getD (List.replicate texts.length default))) s.documents
      have key : (((texts.zip (metadatas.getD (List.replicate texts.length default))).foldl
            (fun ds tm => ds ++ [⟨tm.1, tm.2, ds.length⟩]) s.documents).map
            fun d => d.content).map embed =
          ((texts.zip (metadatas.getD (List.replicate texts.length default))).foldl
            (fun ds tm => ds ++ [⟨tm.1, tm.2, ds.length⟩]) s.documents).map
            fun d => embed d.content := by
        rw [List.map_map]
        rfl
      have key2 : (s.documents.map fun d => d.content).map embed =
          s.documents.map fun d => embed d.content := by
        rw [List.map_map]
        rfl
      rw [← key, hcontent, List.map_append, hfst, key2, ← hc]
    · exact addFold_ids _ s.documents hi

/-- C2. The claim is false as stated: add_documents called with two texts
but a single-element metadata list silently zips to one document entry
while two vectors are added, so the two stores diverge in length. -/
theorem c2_counterexample :
    ntotal (add_documents (fun _ => [0]) emptyStore ["a", "b"] (some [⟨none⟩])) = 2 ∧
    (add_documents (fun _ => [0]) emptyStore ["a", "b"]
      (some [⟨none⟩])).documents.length = 1 :=
  ⟨rfl, rfl⟩

/-- C2 (amended): every store operation preserves the parallel-stores
invariant (vectors are the embeddings of the document contents in order,
each entry records its position as doc_id, hence equal lengths), provided
add_documents is not handed a metadata list shorter than its text list,
load reads back a consistently saved pair, and the fresh-index fallback
runs only at construction time when documents is empty — all of which hold
at every call site in the repository. Hence, starting from the empty
store, no reachable state has the two stores diverging in length. -/
theorem c2_amended_ops_preserve_invariant (embed : String → List ℚ)
    (s : VectorStore) (op : VSOp)
    (h1 : inv embed s) (h2 : opOK embed s op) :
    inv embed (applyOp embed s op) ∧
    ntotal (applyOp embed s op) = (applyOp embed s op).documents.length := by
  have main : inv embed (applyOp embed s op) := by
    cases op with
    | addDocuments texts metas => exact add_documents_inv embed s texts metas h1 h2
    | clearOp =>
      refine ⟨rfl, ?_⟩
      intro i h
      simp [applyOp, clear] at h
    | deleteBySource src =>
      show inv embed (delete_by_source embed s src)
      simp only [delete_by_source]
      split_ifs with hlt hne
      · apply add_documents_inv
        · refine ⟨rfl, ?_⟩
          intro i h
          simp [clear] at h
        · intro ms hms
          injection hms with hms'
          subst hms'
          simp
      · refine ⟨rfl, ?_⟩
        intro i h
        simp [clear] at h
      · exact h1
    | loadSaved saved => exact h2
    | loadFresh =>
      constructor
      · show ([] : List (List ℚ)) = _
        rw [show (applyOp embed s VSOp.loadFresh).documents = s.documents from rfl, h2]
        rfl
      · intro i h
        rw [show (applyOp embed s VSOp.loadFresh).documents = s.documents from rfl, h2] at h
        simp at h
  refine ⟨main, ?_⟩
  have hlen := congrArg List.length main.1
  simpa [ntotal] using hlen

/-- Witness for C2 (amended): adding one text (metadata omitted) to the
empty store keeps the invariant and equal lengths. -/
theorem c2_witness :
    inv (fun _ => [1]) emptyStore ∧
    inv (fun _ => [1]) (applyOp (fun _ => [1]) emptyStore (.addDocuments ["a"] none)) ∧
    ntotal (applyOp (fun _ => [1]) emptyStore (.addDocuments ["a"] none)) =
      (applyOp (fun _ => [1]) emptyStore (.addDocuments ["a"] none)).documents.length :=
  have hinv : inv (fun _ => [1]) emptyStore :=
    ⟨rfl, fun i h => absurd h (by simp [emptyStore])⟩
  have hok : opOK (fun _ => [1]) emptyStore (.addDocuments ["a"] none) :=
    fun _ms hms => nomatch hms
  ⟨hinv,
   (c2_amended_ops_preserve_invariant (fun _ => [1]) emptyStore _ hinv hok).1,
   (c2_amended_ops_preserve_invariant (fun _ => [1]) emptyStore _ hinv hok).2⟩

theorem l2sq_nonneg (u v : List ℚ) : 0 ≤ l2sq u v := by
  unfold l2sq
  apply List.sum_nonneg
  intro x hx
  obtain ⟨p, -, rfl⟩ := List.mem_map.mp hx
  positivity

theorem knn_sorted (vecs : List (List ℚ)) (q : List ℚ) (k : Nat) :
    List.Pairwise distLe (knn vecs q k) := by
  unfold knn
  exact (List.sorted_insertionSort distLe _).take

theorem knn_dist_nonneg (vecs : List (List ℚ)) (q : List ℚ) (k : Nat) :
    ∀ p ∈ knn vecs q k, 0 ≤ p.2 := by
  intro p hp
  unfold knn at hp
  have hp1 := (List.take_sublist _ _).subset hp
  rw [List.mem_insertionSort] at hp1
  obtain ⟨x, -, rfl⟩ := List.mem_map.mp hp1
  exact l2sq_nonneg q x.2

theorem mapped_sorted (vecs : List (List ℚ)) (qe : List ℚ) (m : Nat)
    (docs : List DocEntry) :
    List.Pairwise (fun a b : SearchResult => b.score ≤ a.score)
      (((knn vecs qe m).filter fun p => decide (p.1 < docs.length)).map fun p =>
        { doc := docs.getD p.1 default, score := l2score p.2, distance := p.2 }) := by
  have hpw : List.Pairwise (fun a b : Nat × ℚ => 0 ≤ a.2 ∧ a.2 ≤ b.2)
      ((knn vecs qe m).filter fun p => decide (p.1 < docs.length)) := by
    refine List.Pairwise.imp_of_mem ?_ ((knn_sorted vecs qe m).filter _)
    intro a b ha hb hr
    exact ⟨knn_dist_nonneg _ _ _ a (List.mem_of_mem_filter ha), hr⟩
  refine List.Pairwise.map _ ?_ hpw
  intro a b hab
  show l2score b.2 ≤ l2score a.2
  unfold l2score
  exact one_div_le_one_div_of_le (by linarith [hab.1]) (by linarith [hab.1, hab.2])

theorem search_scores_sorted (embed : String → List ℚ) (s : VectorStore)
    (q : String) (k : Option Nat) :
    List.Pairwise (fun a b : SearchResult => b.score ≤ a.score)
      (search embed s q k) := by
  rcases hs : s.index with - | vecs
  · simp [search, hs]
  · simp only [search, hs]
    split_ifs with h0
    · simp
    · exact mapped_sorted vecs (embed q) _ s.documents

/-- C7. The similarity score 1 / (1 + d) lies in (0, 1] for every
non-negative distance, is strictly decreasing in the distance, and the
results of search are ordered by descending score. -/
theorem c7_score_bounds_monotone_sorted :
    (∀ d : ℚ, 0 ≤ d → 0 < l2score d ∧ l2score d ≤ 1) ∧
    (∀ d1 d2 : ℚ, 0 ≤ d1 → d1 < d2 → l2score d2 < l2score d1) ∧
    (∀ (embed : String → List ℚ) (s : VectorStore) (q : String) (k : Option Nat),
      List.Pairwise (fun a b : SearchResult => b.score ≤ a.score)
        (search embed s q k)) := by
  refine ⟨?_, ?_, search_scores_sorted⟩
  · intro d hd
    unfold l2score
    constructor
    · positivity
    · rw [div_le_one (by linarith)]
      linarith
  · intro d1 d2 h1 h2
    unfold l2score
    exact one_div_lt_one_div_of_lt (by linarith) (by linarith)

/-- Witness for C7 at concrete distances and a concrete store. -/
theorem c7_witness :
    (0 < l2score 2 ∧ l2score 2 ≤ 1) ∧
    l2score 3 < l2score 2 ∧
    List.Pairwise (fun a b : SearchResult => b.score ≤ a.score)
      (search (fun _ => [0]) exStore "q" none) :=
  ⟨c7_score_bounds_monotone_sorted.1 2 (by norm_num),
   c7_score_bounds_monotone_sorted.2.1 2 3 (by norm_num) (by norm_num),
   c7_score_bounds_monotone_sorted.2.2 (fun _ => [0]) exStore "q" none⟩

/-- C8. The claim is false as stated for k = 0: Python `top_k or default`
treats 0 as absent, so search on a one-entry store with top_k = 0 returns
one result, not at most min(0, 1) = 0. -/
theorem c8_counterexample :
    ntotal exStore = 1 ∧
    (search (fun _ => [0]) exStore "q" (some 0)).length = 1 ∧
    ¬ ((search (fun _ => [0]) exStore "q" (some 0)).length ≤
        min 0 (ntotal exStore)) := by
  refine ⟨rfl, by decide, by decide⟩

/-- C8 (amended): search on an index holding zero entries (no index or an
empty one) returns the empty list for every query and every top_k, and for
every k ≥ 1 a search with top_k = k on any store returns at most
min(k, ntotal) results; k = 0 (like None) is replaced by the configured
default TOP_K_RETRIEVAL = 5 before clamping. -/
theorem c8_amended_empty_and_clamped :
    (∀ (embed : String → List ℚ) (s : VectorStore) (q : String) (k : Option Nat),
      ntotal s = 0 → search embed s q k = []) ∧
    (∀ (embed : String → List ℚ) (s : VectorStore) (q : String) (k : Nat),
      1 ≤ k → (search embed s q (some k)).length ≤ min k (ntotal s)) := by
  constructor
  · intro embed s q k h0
    rcases hs : s.index with - | vecs
    · simp [search, hs]
    · have hlen : vecs.length = 0 := by
        simpa [ntotal, hs] using h0
      simp [search, hs, hlen]
  · intro embed s q k hk
    have hk0 : ¬ (k = 0) := by omega
    rcases hs : s.index with - | vecs
    · simp [search, hs]
    · simp only [search, hs, if_neg hk0]
      split_ifs with h0
      · simp
      · rw [List.length_map]
        have h1 : ((knn vecs (embed q) (min k vecs.length)).filter
              fun p => decide (p.1 < s.documents.length)).length ≤
            (knn vecs (embed q) (min k vecs.length)).length :=
          List.length_filter_le _ _
        have h2 : (knn vecs (embed q) (min k vecs.length)).length ≤
            min k vecs.length := by
          unfold knn
          rw [List.length_take]
          exact min_le_left _ _
        have hnt : ntotal s = vecs.length := by simp [ntotal, hs]
        rw [hnt]
        omega

/-- Witness for C8 (amended): the empty store returns nothing; the
one-entry store with k = 1 returns at most one result. -/
theorem c8_witness :
    search (fun _ => [0]) emptyStore "q" none = [] ∧
    (search (fun _ => [0]) exStore "q" (some 1)).length ≤ min 1 (ntotal exStore) :=
  ⟨c8_amended_empty_and_clamped.1 (fun _ => [0]) emptyStore "q" none rfl,
   c8_amended_empty_and_clamped.2 (fun _ => [0]) exStore "q" 1 (by norm_num)⟩

end FAISSVectorStore

theorem mem_enumFrom_lt (l : List α) :
    ∀ (n : Nat) (p : Nat × α), p ∈ l.enumFrom n → n ≤ p.1 ∧ p.1 < n + l.length := by
  induction l with
  | nil => intro n p hp; simp at hp
  | cons x xs ih =>
    intro n p hp
    rcases List.mem_cons.mp hp with rfl | hp'
    · simp
    · have := ih (n + 1) p hp'
      simp only [List.length_cons]
      omega

theorem search_and_summarize_score_at (results : List WebSearchAgent.WebResult)
    (i : Nat) (r : WebSearchAgent.WebResult) (hr : results.get? i = some r)
    (hne : ¬ (results = [])) :
    (WebSearchAgent.search_and_summarize results).get? i =
      some ⟨r.title ++ "\n\n" ++ r.snippet, r.link, none,
        some ((1 : ℚ) - (i : ℚ) * (1 / 10))⟩ := by
  unfold WebSearchAgent.search_and_summarize
  rw [if_neg hne, List.get?_map]
  show ((List.enumFrom 0 results).get? i).map _ = _
  rw [List.get?_enumFrom, hr]
  simp

/-- C5. The claim is false as stated: on a list of twelve web results the
twelfth passage is scored 1 - 11 * 0.1 = -0.1, outside [0, 1] (the
DocumentChunk model places no bound on score). -/
theorem c5_counterexample :
    (WebSearchAgent.search_and_summarize c5results).get? 11 =
      some ⟨"t" ++ "\n\n" ++ "s", "l", none,
        some ((1 : ℚ) - ((11 : ℕ) : ℚ) * (1 / 10))⟩ ∧
    (1 : ℚ) - ((11 : ℕ) : ℚ) * (1 / 10) < 0 := by
  constructor
  · exact search_and_summarize_score_at c5results 11 ⟨"t", "l", "s", "DuckDuckGo"⟩
      (by decide) (by decide)
  · push_cast
    norm_num

/-- C5 (amended): for every list of at most 11 web search results — in
particular under the configured cap WEB_SEARCH_RESULTS = 5 — every passage
produced by search_and_summarize carries a score, and that score lies in
[0, 1]; from the twelfth result on the rank-based score 1 - i * 0.1 would
go negative. -/
theorem c5_amended_scores_in_unit_interval
    (results : List WebSearchAgent.WebResult) (h : results.length ≤ 11) :
    ∀ c ∈ WebSearchAgent.search_and_summarize results,
      ∀ sc ∈ c.score, 0 ≤ sc ∧ sc ≤ 1 := by
  intro c hc sc hsc
  unfold WebSearchAgent.search_and_summarize at hc
  split_ifs at hc with hres
  · simp at hc
  · obtain ⟨p, hp, rfl⟩ := List.mem_map.mp hc
    have hb : 0 ≤ p.1 ∧ p.1 < 0 + results.length := mem_enumFrom_lt results 0 p hp
    simp only [Option.mem_def, Option.some.injEq] at hsc
    subst hsc
    have hge : (0 : ℚ) ≤ (p.1 : ℚ) := Nat.cast_nonneg _
    have hle : (p.1 : ℚ) ≤ 10 := by
      have : p.1 ≤ 10 := by omega
      exact_mod_cast this
    constructor
    · linarith
    · linarith

/-- Witness for C5 (amended) on a three-result list. -/
theorem c5_witness :
    (List.replicate 3 (⟨"t", "l", "s", "DuckDuckGo"⟩ :
      WebSearchAgent.WebResult)).length ≤ 11 ∧
    ∀ c ∈ WebSearchAgent.search_and_summarize
        (List.replicate 3 ⟨"t", "l", "s", "DuckDuckGo"⟩),
      ∀ sc ∈ c.score, 0 ≤ sc ∧ sc ≤ 1 :=
  ⟨by simp,
   c5_amended_scores_in_unit_interval (List.replicate 3 ⟨"t", "l", "s", "DuckDuckGo"⟩)
     (by simp)⟩

theorem contextFold_const (rs : List AgentResp) :
    ∀ parts : List String,
      (∀ r ∈ rs, r.success = false ∨ r.retrieved_docs = []) →
      rs.foldl contextStep parts = parts := by
  induction rs with
  | nil => intro parts _; rfl
  | cons r rest ih =>
    intro parts h
    rw [List.foldl_cons]
    have hr := h r (List.mem_cons_self r rest)
    have hstep : contextStep parts r = parts := by
      unfold contextStep
      rw [if_neg]
      rcases hr with hf | hd
      · intro hc
        rw [hf] at hc
        exact absurd hc.1 (by simp)
      · intro hc
        exact hc.2 hd
    rw [hstep]
    exact ih parts fun x hx => h x (List.mem_cons_of_mem r hx)

/-- C9. If no invoked capability contributed any passage (every response
failed or carries an empty document list), synthesize_answer returns the
fixed insufficient-information message without calling the completion
backend. -/
theorem c9_no_passages_skips_synthesis (query decision_rationale : String)
    (agent_responses : List AgentResp)
    (h : ∀ r ∈ agent_responses, r.success = false ∨ r.retrieved_docs = []) :
    synthesize_answer query agent_responses decision_rationale =
      .noCall insufficientMsg := by
  unfold synthesize_answer
  rw [show contextParts agent_responses = [] from contextFold_const _ [] h]
  rfl

/-- Witness for C9: one failed capability and one successful one with an
empty passage list yield the fixed message with no backend call. -/
theorem c9_witness :
    synthesize_answer "what is the capital of France"
      [⟨AgentType.web_search, false, some "No web search results found.", [], 0⟩,
       ⟨AgentType.arxiv, true, none, [], 0⟩]
      "Rule-based routing: default to web search" =
      .noCall insufficientMsg :=
  c9_no_passages_skips_synthesis _ _ _ (by decide)

namespace AgentLogger

theorem lastN_length (n : Nat) (l : List α) :
    (lastN n l).length = l.length - (l.length - n) := by
  simp [lastN]

theorem lastN_append_lastN (n : Nat) (a b : List α) :
    lastN n (lastN n a ++ b) = lastN n (a ++ b) := by
  unfold lastN
  rw [← List.drop_append_of_le_length (by omega : a.length - n ≤ a.length)]
  rw [List.drop_drop]
  congr 1
  simp only [List.length_drop, List.length_append]
  omega

theorem foldl_log_request (entries : List LogEntry) :
    ∀ init : List LogEntry, init.length ≤ LOG_CAP →
      entries.foldl log_request init = lastN LOG_CAP (init ++ entries) := by
  induction entries with
  | nil =>
    intro init h
    rw [List.foldl_nil, List.append_nil]
    unfold lastN
    rw [show init.length - LOG_CAP = 0 from by omega, List.drop_zero]
  | cons e rest ih =>
    intro init h
    rw [List.foldl_cons]
    have hlen : (log_request init e).length ≤ LOG_CAP := by
      simp only [log_request]
      split_ifs with hc
      · rw [lastN_length]
        omega
      · simp only [List.length_append, List.length_singleton] at hc ⊢
        omega
    rw [ih (log_request init e) hlen]
    have hshape : lastN LOG_CAP (log_request init e ++ rest) =
        lastN LOG_CAP ((init ++ [e]) ++ rest) := by
      simp only [log_request]
      split_ifs with hc
      · rw [lastN_append_lastN]
      · rfl
    rw [hshape, List.append_assoc]
    rfl

/-- C10. After any number of logged requests exceeding the cap
LOG_CAP = 1000 (starting from the empty log), the stored log holds exactly
1000 entries — the most recent ones in order, oldest evicted first — and
get_logs with limit 1000 returns exactly those entries. -/
theorem c10_log_bounded_most_recent (entries : List LogEntry)
    (h : LOG_CAP < entries.length) :
    (entries.foldl log_request []).length = LOG_CAP ∧
    entries.foldl log_request [] = lastN LOG_CAP entries ∧
    get_logs (entries.foldl log_request []) LOG_CAP =
      entries.foldl log_request [] := by
  have hfold := foldl_log_request entries [] (by simp)
  rw [List.nil_append] at hfold
  have hlen : (entries.foldl log_request []).length = LOG_CAP := by
    rw [hfold, lastN_length]
    omega
  refine ⟨hlen, hfold, ?_⟩
  unfold get_logs
  rw [if_neg (by norm_num [LOG_CAP])]
  unfold lastN
  rw [hlen]
  rw [show LOG_CAP - LOG_CAP = 0 from by omega, List.drop_zero]

/-- Witness for C10 with 1001 logged requests. -/
theorem c10_witness :
    ((List.replicate 1001 exEntry).foldl log_request []).length = LOG_CAP ∧
    (List.replicate 1001 exEntry).foldl log_request [] =
      lastN LOG_CAP (List.replicate 1001 exEntry) ∧
    get_logs ((List.replicate 1001 exEntry).foldl log_request []) LOG_CAP =
      (List.replicate 1001 exEntry).foldl log_request [] :=
  c10_log_bounded_most_recent (List.replicate 1001 exEntry)
    (by simp [LOG_CAP])

end AgentLogger
